import Mathlib

/-!
Verification of the web2vault content-fitting and orchestration core.

This file is a shallow embedding, in Lean 4, of the parts of the
`web2vault` Python package that the specification's testable properties
talk about:

* `src/web2vault/utils.py` — `estimate_tokens`;
* `src/web2vault/chunker.py` — `split_by_headings`, `_merge_sections`,
  `_split_by_paragraphs`, `chunk_content`;
* `src/web2vault/generators/base.py` — `NoteGenerator._clean_output`,
  `_fit_content_to_context`, `_generate_from_chunks`, `_reduce_results`
  and the reduce prompts;
* `src/web2vault/generators/practice.py` and `deep_dive.py` — the
  multi-pass bodies, their plan/outline parsers and their prompts.

Text is modelled as `List Char` (Python `str` restricted to the
behaviour of its ASCII whitespace and case operations, which is the
regime every property below lives in).  Python regular expressions are
translated operation by operation into recursive functions whose
backtracking behaviour on the concrete patterns used by the source
(`(?=^## )`, `\n\n+`, `^---\s*\n.*?\n---\s*\n?`, `^(#)\s+(.+)`,
`\n{4,}`, `\((\d+)\s+questions?`) is worked out in the comments next to
each definition.  Calls to the LLM provider are modelled by an abstract
function `GenFun`; the orchestration functions additionally return the
ordered list of calls they issue, so that properties about the *number*
of generation calls can be stated.
-/

/-- Program text: a Python `str` as its list of characters. -/
abbrev Text := List Char

/-- Python's whitespace set, restricted to ASCII: the characters that
`str.strip` / `str.isspace` / regex `\s` treat as whitespace. -/
def pyWhite (c : Char) : Bool :=
  c == ' ' || c == '\t' || c == '\n' || c == '\r' || c == '\x0b' || c == '\x0c'

/-- The characters of `t` that are not whitespace; losing only whitespace
means preserving this sequence. -/
def filterNW (t : Text) : Text :=
  t.filter (fun c => !pyWhite c)

/-- Python `str.lstrip()`. -/
def pyLstrip (t : Text) : Text :=
  t.dropWhile pyWhite

/-- Python `str.rstrip()`. -/
def pyRstrip (t : Text) : Text :=
  (t.reverse.dropWhile pyWhite).reverse

/-- Python `str.strip()`. -/
def pyStrip (t : Text) : Text :=
  pyRstrip (pyLstrip t)

/-- `utils.estimate_tokens`: `len(text) // 4`. -/
def estimate_tokens (t : Text) : Nat :=
  t.length / 4

/-- Worker for `re.split(r"(?=^<marker>)", s, flags=re.MULTILINE)` with a
plain-text `marker`: the string is cut (keeping all characters) at every
position that is at the start of a line and where `marker` begins.
`acc` holds the current piece reversed, `atStart` says whether the scan
is at the start of a line. -/
def split_marker_go (marker : Text) (acc : Text) (atStart : Bool) : Text → List Text
  | [] => [acc.reverse]
  | c :: cs =>
    if atStart && marker.isPrefixOf (c :: cs) then
      acc.reverse :: split_marker_go marker [c] (c == '\n') cs
    else
      split_marker_go marker (c :: acc) (c == '\n') cs

/-- `re.split(r"(?=^<marker>)", s, flags=re.MULTILINE)`.  As in Python,
a match at position 0 yields a leading empty piece. -/
def split_at_marker (marker : Text) (s : Text) : List Text :=
  split_marker_go marker [] true s

/-- The `## ` heading marker of `chunker.split_by_headings`. -/
def h2_marker : Text := ['#', '#', ' ']

/-- The `# ` heading marker of `chunker.split_by_headings`. -/
def h1_marker : Text := ['#', ' ']

/-- Worker for `re.split(r"\n\n+", text)`: pieces between maximal runs of
two or more newlines; the runs themselves are dropped.  `fuel` bounds the
recursion and is never exhausted when `fuel ≥ length` of the text. -/
def split_nn_go (fuel : Nat) (acc : Text) (t : Text) : List Text :=
  match fuel, t with
  | _, [] => [acc.reverse]
  | 0, _ :: _ => [acc.reverse]
  | fuel + 1, c :: cs =>
    if c == '\n' && cs.head? == some '\n' then
      acc.reverse :: split_nn_go fuel [] ((cs.drop 1).dropWhile (fun d => d == '\n'))
    else
      split_nn_go fuel (c :: acc) cs

/-- `re.split(r"\n\n+", text)`. -/
def split_nn (t : Text) : List Text :=
  split_nn_go t.length [] t

/-- The loop of `chunker._merge_sections`: `ss` are the sections still to
process, `current` the chunk being grown, `chunks` the finished chunks. -/
def merge_go (max_tokens : Nat) : List Text → Text → List Text → List Text
  | [], current, chunks =>
    let chunks2 := if (pyStrip current).isEmpty then chunks else chunks ++ [current]
    if chunks2.isEmpty then
      if (pyStrip current).isEmpty then [] else [current]
    else chunks2
  | s :: ss, current, chunks =>
    if (pyStrip s).isEmpty then
      merge_go max_tokens ss current chunks
    else if estimate_tokens (current ++ s) ≤ max_tokens then
      merge_go max_tokens ss (current ++ s) chunks
    else
      merge_go max_tokens ss s
        (if (pyStrip current).isEmpty then chunks else chunks ++ [current])

/-- `chunker._merge_sections(sections, max_tokens)`. -/
def merge_sections (sections : List Text) (max_tokens : Nat) : List Text :=
  merge_go max_tokens sections [] []

/-- `chunker._split_by_paragraphs(text, max_tokens)`. -/
def split_by_paragraphs (text : Text) (max_tokens : Nat) : List Text :=
  merge_sections (split_nn text) max_tokens

/-- `chunker.split_by_headings(markdown, max_tokens)`. -/
def split_by_headings (markdown : Text) (max_tokens : Nat) : List Text :=
  if estimate_tokens markdown ≤ max_tokens then [markdown]
  else
    let chunks := merge_sections (split_at_marker h2_marker markdown) max_tokens
    if chunks.all (fun c => estimate_tokens c ≤ max_tokens) then chunks
    else
      let refined := (chunks.map (fun c =>
        if max_tokens < estimate_tokens c then
          merge_sections (split_at_marker h1_marker c) max_tokens
        else [c])).flatten
      (refined.map (fun c =>
        if max_tokens < estimate_tokens c then split_by_paragraphs c max_tokens
        else [c])).flatten

/-- `chunker.chunk_content(content, max_input_tokens)`.  Python computes
`available = max_input_tokens - 10_000` as a (possibly negative) `int`;
the chunker is only ever invoked with provider limits far above 10 000,
where `Int.toNat` is the identity on `available`. -/
def chunk_content (content : Text) (max_input_tokens : Nat) : List Text :=
  let available : Int := (max_input_tokens : Int) - 10000
  if (estimate_tokens content : Int) ≤ available then [content]
  else split_by_headings content available.toNat

/-- Python `sep.join(parts)`. -/
def joinSep (sep : Text) : List Text → Text
  | [] => []
  | [x] => x
  | x :: y :: xs => x ++ sep ++ joinSep sep (y :: xs)

/-- Python `text.split("\n")`.  Always returns at least one piece. -/
def splitLines : Text → List Text
  | [] => [[]]
  | c :: cs =>
    if c == '\n' then [] :: splitLines cs
    else
      match splitLines cs with
      | l :: ls => (c :: l) :: ls
      | [] => [[c]]

/-- Python `"\n".join(lines)`. -/
def joinLines (ls : List Text) : Text :=
  joinSep ['\n'] ls

/-- Worker for `re.sub(r"\n{4,}", "\n\n\n", text)`: `k` counts the
pending run of consecutive newlines; when the run ends it is emitted,
capped at three when it had length four or more (runs of at most three
are left alone, as with the regex). -/
def collapse_nl_go (k : Nat) : Text → Text
  | [] => List.replicate (min k 3) '\n'
  | c :: cs =>
    if c == '\n' then collapse_nl_go (k + 1) cs
    else List.replicate (min k 3) '\n' ++ c :: collapse_nl_go 0 cs

/-- `re.sub(r"\n{4,}", "\n\n\n", text)` in `_clean_output`. -/
def collapse_nl (t : Text) : Text :=
  collapse_nl_go 0 t

/-- Leftmost occurrence of `"\n---"`: the text that follows it, if any.
This is the lazy `.*?\n---` part of the frontmatter pattern. -/
def after_nl_dashes : Text → Option Text
  | [] => none
  | c :: cs =>
    if ['\n', '-', '-', '-'].isPrefixOf (c :: cs) then some ((c :: cs).drop 4)
    else after_nl_dashes cs

/-- Candidate lengths for the greedy `\s*` before the first `\n` of the
frontmatter pattern: the indices of `'\n'` inside the whitespace run
`w`, largest first (the regex backtracks from the longest). -/
def nl_idx_desc (w : Text) : List Nat :=
  ((w.enum.filter (fun p => p.2 == '\n')).map (fun p => p.1)).reverse

/-- Try the candidate split points in order; for the first one whose
remainder contains `"\n---"`, the match succeeds and `\s*\n?` greedily
eats the following whitespace run. -/
def fm_try (rest : Text) : List Nat → Option Text
  | [] => none
  | k :: ks =>
    match after_nl_dashes (rest.drop (k + 1)) with
    | some after => some (after.dropWhile pyWhite)
    | none => fm_try rest ks

/-- `re.sub(r"^---\s*\n.*?\n---\s*\n?", "", text, count=1, flags=re.DOTALL)`
in `_clean_output`: strip a leading YAML frontmatter block.  The pattern
is anchored at the start; `---` must be followed by a whitespace run
containing a newline (`\s*` greedy, backtracking), then the lazy `.*?`
runs to the first `"\n---"`, then `\s*\n?` greedily eats whitespace. -/
def fm_sub (t : Text) : Text :=
  if ['-', '-', '-'].isPrefixOf t then
    let rest := t.drop 3
    match fm_try rest (nl_idx_desc (rest.takeWhile pyWhite)) with
    | some res => res
    | none => t
  else t

/-- Backtracking for `re.match(r"^(#)\s+(.+)", text)` when everything
after `#` is whitespace: `\s+` shrinks from its maximal extent until
`.+` can match at least one non-newline character, i.e. until the last
non-`'\n'` character of the whitespace run `w` (at index ≥ 1). -/
def h1_backtrack (w : Text) : Option Text :=
  match (w.drop 1).reverse.findIdx? (fun c => c != '\n') with
  | some j =>
    let m := w.length - 1 - j
    some ((w.drop m).takeWhile (fun c => c != '\n'))
  | none => none

/-- `re.match(r"^(#)\s+(.+)", text)`: `group(2)`, if the pattern
matches.  `\s+` greedily takes the whitespace run after `#` (which may
include newlines) and `.+` takes the rest of the current line; if
nothing follows the whitespace run, `\s+` backtracks into it. -/
def h1_group2 (t : Text) : Option Text :=
  match t with
  | '#' :: rest =>
    let w := rest.takeWhile pyWhite
    if w.isEmpty then none
    else
      let r := rest.dropWhile pyWhite
      if r.isEmpty then h1_backtrack w
      else some (r.takeWhile (fun c => c != '\n'))
  | _ => none

/-- ASCII `str.lower()`. -/
def txt_lower (t : Text) : Text :=
  t.map Char.toLower

/-- Python `pat in t` on strings: `pat` occurs as a contiguous substring. -/
def contains_sub (pat : Text) : Text → Bool
  | [] => pat.isEmpty
  | c :: cs => pat.isPrefixOf (c :: cs) || contains_sub pat cs

/-- The duplicate-title-heading removal step of `_clean_output`
(`base.py` lines 209–224): if the text starts with a level-1 heading
whose normalized text equals / is a prefix of / extends the normalized
title, or contains the note type, the first line is dropped and the
remainder stripped. -/
def clean_h1 (note_type title t : Text) : Text :=
  match h1_group2 t with
  | none => t
  | some g2 =>
    let heading_text := pyStrip g2
    let title_normalized := pyStrip (txt_lower title)
    let heading_normalized := pyStrip (txt_lower heading_text)
    if heading_normalized == title_normalized
        || heading_normalized.isPrefixOf title_normalized
        || title_normalized.isPrefixOf heading_normalized
        || contains_sub note_type heading_normalized then
      match t.findIdx? (fun c => c == '\n') with
      | some i => pyStrip (t.drop (i + 1))
      | none => []
    else t

/-- The per-line `rstrip` step of `_clean_output`:
`"\n".join(line.rstrip() for line in text.split("\n"))`. -/
def rstrip_lines (t : Text) : Text :=
  joinLines ((splitLines t).map pyRstrip)

/-- `NoteGenerator._clean_output(text, title)` (`self.note_type` passed
explicitly): strip, remove frontmatter, strip, drop a duplicate title
heading, collapse runs of four or more newlines to three, rstrip every
line, strip. -/
def clean_output (note_type title text : Text) : Text :=
  if text.isEmpty then text
  else
    let t1 := pyStrip text
    let t2 := fm_sub t1
    let t3 := pyStrip t2
    let t4 := clean_h1 note_type title t3
    let t5 := collapse_nl t4
    let t6 := rstrip_lines t5
    pyStrip t6

/-- Python `truncated.rfind("\n\n")`: the largest index where `"\n\n"`
starts, if any. -/
def rfind_bb (t : Text) : Option Nat :=
  ((List.range t.length).filter (fun i => ['\n', '\n'].isPrefixOf (t.drop i))).getLast?

/-- The truncation marker appended by `_fit_content_to_context`. -/
def trunc_marker : Text :=
  "\n\n[Content truncated to fit context window]".toList

/-- `NoteGenerator._fit_content_to_context(content, *other_parts)`
(`self._llm.max_input_tokens` passed explicitly).  The allowance is the
input budget minus a 10 000-token overhead minus the other parts'
estimates (computed in `Int` as Python's can go negative), floored at
10 000 when non-positive; content that fits is returned unchanged,
otherwise a prefix of at most `4 * allowance` characters is cut —
preferring the last paragraph boundary when it lies past the midpoint —
and the truncation marker appended. -/
def fit_content_to_context (max_input_tokens : Nat) (content : Text)
    (other_parts : List Text) : Text :=
  let overhead : Int := 10000
  let other_tokens : Int := ((other_parts.map estimate_tokens).sum : Nat)
  let available0 : Int := (max_input_tokens : Int) - overhead - other_tokens
  let available : Nat := if available0 ≤ 0 then 10000 else available0.toNat
  if estimate_tokens content ≤ available then content
  else
    let max_chars := available * 4
    let truncated := content.take max_chars
    let truncated2 :=
      match rfind_bb truncated with
      | some last_para =>
        if max_chars / 2 < last_para then truncated.take last_para else truncated
      | none => truncated
    truncated2 ++ trunc_marker

/-- An LLM provider's `generate(system_prompt, user_prompt,
max_output_tokens) -> text`, abstract: the core treats it as a black
box. -/
abbrev GenFun := Text → Text → Nat → Text

/-- One recorded `generate` call: the embedding's instrumentation.  Each
orchestration function below returns, next to its text result, the
ordered list of calls it issued, so that call-count properties can be
stated. -/
structure LLMCall where
  system : Text
  user : Text
  max_output_tokens : Nat
deriving DecidableEq

/-- The `"\n\n---\n\n"` separator of `_reduce_results`. -/
def separator_text : Text := "\n\n---\n\n".toList

/-- `NoteGenerator._reduce_system_prompt`. -/
def reduce_system_prompt : Text :=
  ("You are combining multiple partial note sections into a single, "
    ++ "cohesive, comprehensive document for an Obsidian vault. "
    ++ "Your job is to:\n"
    ++ "1. Merge all sections into one well-structured document\n"
    ++ "2. Remove exact duplicates but KEEP all unique information\n"
    ++ "3. Ensure smooth transitions and logical flow between sections\n"
    ++ "4. Maintain all markdown formatting, [[wikilinks]], and heading hierarchy\n"
    ++ "5. Preserve the depth and detail of each section — do NOT summarize or shorten\n"
    ++ "6. Output ONLY the final merged markdown body (no YAML frontmatter, no title heading)").toList

/-- `NoteGenerator._reduce_user_prompt(title, combined)`. -/
def reduce_user_prompt (title combined : Text) : Text :=
  "Merge these partial note sections about \x27".toList ++ title
    ++ ("\x27 into one cohesive document. "
      ++ "Keep ALL unique content from every section — do not summarize or shorten anything. "
      ++ "Remove only exact duplicates. Maintain heading hierarchy and formatting.\n\n").toList
    ++ combined

/-- One round of the hierarchical reduction loop in `_reduce_results`:
adjacent partial results are merged in pairs by a reduce call each; an
odd leftover is carried forward unmerged. -/
def merge_round (gen : GenFun) (max_output_tokens : Nat) (title : Text) :
    List Text → List Text × List LLMCall
  | [] => ([], [])
  | [a] => ([a], [])
  | a :: b :: rest =>
    let pair := a ++ separator_text ++ b
    let call : LLMCall :=
      ⟨reduce_system_prompt, reduce_user_prompt title pair, max_output_tokens⟩
    let r := gen call.system call.user max_output_tokens
    let next := merge_round gen max_output_tokens title rest
    (r :: next.1, call :: next.2)

/-- The `while len(partial_results) > 1` loop of `_reduce_results`,
with explicit fuel (one unit per round; `fuel ≥ length` always
suffices, because each round at least halves the list).  Returns the
final list, the number of rounds performed and the calls issued. -/
def hier_loop (gen : GenFun) (max_output_tokens : Nat) (title : Text) :
    Nat → List Text → List Text × Nat × List LLMCall
  | 0, l => (l, 0, [])
  | fuel + 1, l =>
    if 1 < l.length then
      let step := merge_round gen max_output_tokens title l
      let rest := hier_loop gen max_output_tokens title fuel step.1
      (rest.1, rest.2.1 + 1, step.2 ++ rest.2.2)
    else (l, 0, [])

/-- `NoteGenerator._reduce_results(partial_results, title)`
(provider limits passed explicitly): one merge call when the joined
partials fit `max_input_tokens - 10_000`, hierarchical pairwise
reduction otherwise. -/
def reduce_results (gen : GenFun) (max_input_tokens max_output_tokens : Nat)
    (title : Text) (partial_results : List Text) : Text × List LLMCall :=
  let combined := joinSep separator_text partial_results
  let available : Int := (max_input_tokens : Int) - 10000
  if (estimate_tokens combined : Int) ≤ available then
    (gen reduce_system_prompt (reduce_user_prompt title combined) max_output_tokens,
      [⟨reduce_system_prompt, reduce_user_prompt title combined, max_output_tokens⟩])
  else
    let r := hier_loop gen max_output_tokens title partial_results.length partial_results
    (r.1.headD [], r.2.2)

/-- `NoteGenerator._generate_from_chunks(scraped)`: chunk the content,
run the (abstract) per-chunk body generator `genBody` on each chunk in
order, then return the single partial unmodified or reduce.  `genBody`
returns its text together with the calls it issued. -/
def generate_from_chunks (gen : GenFun) (genBody : Text → Text × List LLMCall)
    (max_input_tokens max_output_tokens : Nat) (title content : Text) :
    Text × List LLMCall :=
  let chunks := chunk_content content max_input_tokens
  let partial_results := chunks.map (fun c => (genBody c).1)
  let mapCalls := (chunks.map (fun c => (genBody c).2)).flatten
  if partial_results.length = 1 then (partial_results.headD [], mapCalls)
  else
    let r := reduce_results gen max_input_tokens max_output_tokens title partial_results
    (r.1, mapCalls ++ r.2)

/-- `"prompt overhead buffer" * 50`, the fixed overhead string both
multi-pass generators pass to `_fit_content_to_context`. -/
def overhead_buffer : Text :=
  (List.replicate 50 ("prompt overhead buffer".toList)).flatten

/-- A `PracticeGenerator._parse_topics` topic dict: name, concepts
(joined with newlines) and planned question count. -/
structure Topic where
  name : Text
  concepts : Text
  count : Nat
deriving DecidableEq

/-- First occurrence of `"**"` (Python `str.find("**")`). -/
def find_ss : Text → Option Nat
  | [] => none
  | c :: cs =>
    if c == '*' && cs.head? == some '*' then some 0
    else (find_ss cs).map (· + 1)

/-- Python `stripped.split(".", 1)[-1]`: everything after the first
`'.'`, or the whole string when there is none. -/
def after_first_dot (t : Text) : Text :=
  match t.findIdx? (fun c => c == '.') with
  | some i => t.drop (i + 1)
  | none => t

/-- Python `str.strip("*")`. -/
def strip_star (t : Text) : Text :=
  ((t.dropWhile (fun c => c == '*')).reverse.dropWhile (fun c => c == '*')).reverse

/-- The topic name extracted from a numbered plan line: the text between
the first two `"**"` markers when both exist, otherwise the text after
the first dot, stripped of whitespace and asterisks. -/
def topic_name_of (stripped : Text) : Text :=
  match find_ss stripped with
  | some s =>
    match find_ss (stripped.drop (s + 2)) with
    | some j => (stripped.drop (s + 2)).take j
    | none => strip_star (pyStrip (after_first_dot stripped))
  | none => strip_star (pyStrip (after_first_dot stripped))

/-- Digits to a number, for `int(count_match.group(1))`. -/
def nat_of_digits (ds : Text) : Nat :=
  ds.foldl (fun n c => n * 10 + (c.toNat - '0'.toNat)) 0

/-- `re.search(r"\((\d+)\s+questions?", stripped)`: scan left to right
for `'('` followed by a digit run, a whitespace run, and the literal
`question`; return the digit run's value. -/
def count_search : Text → Option Nat
  | [] => none
  | c :: cs =>
    if c == '(' then
      let ds := cs.takeWhile Char.isDigit
      let r1 := cs.dropWhile Char.isDigit
      if !ds.isEmpty && !(r1.takeWhile pyWhite).isEmpty
          && "question".toList.isPrefixOf (r1.dropWhile pyWhite) then
        some (nat_of_digits ds)
      else count_search cs
    else count_search cs

/-- The line loop of `PracticeGenerator._parse_topics`: a line that is
nonempty, starts with a digit and contains `"**"` opens a new topic
(flushing the previous one); a line starting with `-` while a topic is
open is appended, stripped, to its concepts. -/
def parse_topics_go : List Text → Option Text → List Text → Nat → List Topic
  | [], curName, curConc, curCount =>
    match curName with
    | some n => [⟨n, joinLines curConc, curCount⟩]
    | none => []
  | line :: rest, curName, curConc, curCount =>
    let stripped := pyStrip line
    if !stripped.isEmpty && (stripped.headD ' ').isDigit
        && contains_sub ['*', '*'] stripped then
      let flushed : List Topic :=
        match curName with
        | some n => [⟨n, joinLines curConc, curCount⟩]
        | none => []
      flushed ++ parse_topics_go rest (some (topic_name_of stripped)) []
        ((count_search stripped).getD 5)
    else if curName.isSome && stripped.head? == some '-' then
      parse_topics_go rest curName (curConc ++ [stripped]) curCount
    else
      parse_topics_go rest curName curConc curCount

/-- `PracticeGenerator._parse_topics(plan)`. -/
def parse_topics (plan : Text) : List Topic :=
  parse_topics_go (splitLines plan) none [] 5

/-- `PracticeGenerator._plan_system_prompt`. -/
def practice_plan_system_prompt : Text :=
  ("You are planning a comprehensive practice quiz. Identify all major "
    ++ "topics from the source material and plan how many questions of each "
    ++ "type to create for each topic.\n\n"
    ++ "Output a numbered list:\n"
    ++ "1. **Topic Name** (N questions: X multiple choice, Y true/false, Z short answer)\n"
    ++ "   - Key concept to test A\n"
    ++ "   - Key concept to test B\n"
    ++ "   - ...\n\n"
    ++ "Aim for 25-40 total questions across all topics.").toList

/-- `PracticeGenerator._plan_user_prompt(content, title, url)`. -/
def practice_plan_user_prompt (content title url : Text) : Text :=
  "Plan a comprehensive practice quiz for \x27".toList ++ title
    ++ "\x27 (".toList ++ url
    ++ (").\n\n"
      ++ "Identify 5-10 distinct topics and plan 3-8 questions per topic.\n\n"
      ++ "SOURCE CONTENT:\n\n").toList
    ++ content

/-- `PracticeGenerator._system_prompt`.  The two trailing helper strings
`self._math_formatting_instructions()` and
`self._vault_linking_instructions()` are defined outside the files under
`src/` and are passed in as the opaque parameters `mi` and `vi`. -/
def practice_system_prompt (mi vi : Text) : Text :=
  ("You are an expert educator creating practice quiz questions for an "
    ++ "Obsidian vault. Generate a thorough set of practice questions with "
    ++ "hidden answers using Obsidian callout syntax. Questions should test "
    ++ "understanding at multiple levels: recall, comprehension, application, "
    ++ "and analysis.\n\n"
    ++ "Write in an objective, third-person, informational style. Do not "
    ++ "reference the author or use first-person voice.\n\n"
    ++ "Output ONLY the markdown body (no YAML frontmatter, no top-level # title heading)").toList
    ++ mi ++ vi

/-- `PracticeGenerator._user_prompt(content, title, url)` (the fallback
prompt). -/
def practice_user_prompt (content title url : Text) : Text :=
  "Create a comprehensive set of practice quiz questions about \x27".toList
    ++ title ++ "\x27 (".toList ++ url
    ++ (").\n\n"
      ++ "Requirements:\n"
      ++ "- Generate 25-40 practice questions covering ALL major topics\n"
      ++ "- Mix of question types:\n"
      ++ "  - Multiple choice (4 options A-D)\n"
      ++ "  - True/False with explanation\n"
      ++ "  - Short answer requiring 2-3 sentence responses\n"
      ++ "  - Fill-in-the-blank\n"
      ++ "- Label each question type in bold (e.g., **Multiple Choice**, **True/False**)\n"
      ++ "- Number all questions sequentially\n"
      ++ "- Hide answers using Obsidian collapsed callout syntax:\n"
      ++ "  > [!answer]- Click to reveal answer\n"
      ++ "  > **Answer:** The answer with explanation...\n\n"
      ++ "- Organize by topic using ## headings\n"
      ++ "- Include questions at varying difficulty levels\n"
      ++ "- Do NOT include YAML frontmatter or a top-level # title heading\n\n"
      ++ "SOURCE CONTENT:\n\n").toList
    ++ content

/-- `PracticeGenerator._section_system_prompt`, with the same two opaque
helper parameters as `practice_system_prompt`. -/
def practice_section_system_prompt (mi vi : Text) : Text :=
  ("You are an expert educator writing practice questions for one topic "
    ++ "section of a quiz document in an Obsidian vault.\n\n"
    ++ "Write in an objective, third-person, informational style. Do not "
    ++ "reference the author or use first-person voice.\n\n"
    ++ "Rules:\n"
    ++ "- Start with ## heading for the topic\n"
    ++ "- Number questions sequentially starting from the given number\n"
    ++ "- Label each question type in bold\n"
    ++ "- For multiple choice: provide 4 options (A-D)\n"
    ++ "- For true/false: include explanation in the answer\n"
    ++ "- For short answer: require 2-3 sentence responses\n"
    ++ "- Hide ALL answers using Obsidian collapsed callout syntax:\n"
    ++ "  > [!answer]- Click to reveal answer\n"
    ++ "  > **Answer:** The answer with explanation\n\n"
    ++ "- Do NOT include YAML frontmatter or a top-level # title heading").toList
    ++ mi ++ vi

/-- Decimal rendering of a number, for the f-string interpolation of
`start_number`. -/
def nat_text (n : Nat) : Text :=
  Nat.toDigits 10 n

/-- `PracticeGenerator._section_user_prompt(content, title, url, topic,
start_number)`. -/
def practice_section_user_prompt (content title url : Text) (topic : Topic)
    (start_number : Nat) : Text :=
  "Write practice quiz questions for the following topic from \x27".toList
    ++ title ++ "\x27 (".toList ++ url ++ ").\n\nTOPIC: ".toList ++ topic.name
    ++ "\nKey concepts to test:\n".toList ++ topic.concepts
    ++ "\n\nStart numbering from question ".toList ++ nat_text start_number
    ++ (".\n"
      ++ "Generate 4-8 questions for this topic with a mix of types.\n\n"
      ++ "SOURCE CONTENT:\n\n").toList
    ++ content

/-- The per-topic loop of `PracticeGenerator._generate_body`: each topic
gets one section call, the running question number advancing by the
topic's *planned* count (`topic.get("count", 5)`). -/
def practice_sections_loop (gen : GenFun) (max_output_tokens : Nat) (mi vi : Text)
    (fitted title url : Text) (question_number : Nat) :
    List Topic → List Text × List LLMCall
  | [] => ([], [])
  | topic :: rest =>
    let call : LLMCall :=
      ⟨practice_section_system_prompt mi vi,
        practice_section_user_prompt fitted title url topic question_number,
        max_output_tokens⟩
    let sec := gen call.system call.user max_output_tokens
    let next := practice_sections_loop gen max_output_tokens mi vi fitted title url
      (question_number + topic.count) rest
    (sec :: next.1, call :: next.2)

/-- `PracticeGenerator._generate_body(content, title, url)`: plan call,
topic parse, fallback single call on an empty parse, otherwise one call
per topic on content fitted to the context window. -/
def practice_generate_body (gen : GenFun) (max_input_tokens max_output_tokens : Nat)
    (mi vi : Text) (content title url : Text) : Text × List LLMCall :=
  let plan := gen practice_plan_system_prompt
    (practice_plan_user_prompt content title url) 3072
  let planCall : LLMCall :=
    ⟨practice_plan_system_prompt, practice_plan_user_prompt content title url, 3072⟩
  let topics := parse_topics plan
  if topics.isEmpty then
    (gen (practice_system_prompt mi vi) (practice_user_prompt content title url)
        max_output_tokens,
      [planCall, ⟨practice_system_prompt mi vi,
        practice_user_prompt content title url, max_output_tokens⟩])
  else
    let fitted := fit_content_to_context max_input_tokens content [plan, overhead_buffer]
    let secs := practice_sections_loop gen max_output_tokens mi vi fitted title url 1 topics
    (joinSep "\n\n".toList secs.1, planCall :: secs.2)

/-- A `DeepDiveGenerator._parse_outline_sections` section dict:
`## ` heading line and the lines accumulated under it. -/
structure OutlineSection where
  heading : Text
  points : Text
deriving DecidableEq

/-- The line loop of `DeepDiveGenerator._parse_outline_sections`: a
stripped line starting with `## ` (and not `### `) opens a new section;
any other nonempty line under an open section is accumulated verbatim. -/
def parse_outline_go : List Text → Option Text → List Text → List OutlineSection
  | [], cur, pts =>
    (match cur with
      | some h => [⟨h, joinLines pts⟩]
      | none => [])
  | line :: rest, cur, pts =>
    let stripped := pyStrip line
    if ['#', '#', ' '].isPrefixOf stripped
        && !(['#', '#', '#', ' '].isPrefixOf stripped) then
      (match cur with
        | some h => [⟨h, joinLines pts⟩]
        | none => [])
        ++ parse_outline_go rest (some stripped) []
    else if cur.isSome && !stripped.isEmpty then
      parse_outline_go rest cur (pts ++ [line])
    else
      parse_outline_go rest cur pts

/-- `DeepDiveGenerator._parse_outline_sections(outline)`. -/
def parse_outline_sections (outline : Text) : List OutlineSection :=
  parse_outline_go (splitLines outline) none []

/-- `DeepDiveGenerator._outline_system_prompt`. -/
def dd_outline_system_prompt : Text :=
  ("You are an expert educator planning a comprehensive study document. "
    ++ "Your task is to create a DETAILED hierarchical outline that identifies "
    ++ "every major topic, subtopic, and key point from the source material. "
    ++ "This outline will be used to generate full content for each section, "
    ++ "so be thorough in identifying what should be covered.\n\n"
    ++ "Output the outline using markdown heading syntax:\n"
    ++ "- ## for major sections\n"
    ++ "- ### for subsections\n"
    ++ "- Bullet points under each heading listing the key points to cover\n\n"
    ++ "Do NOT write full prose — just headings and bullet points.").toList

/-- `DeepDiveGenerator._outline_user_prompt(content, title, url)`. -/
def dd_outline_user_prompt (content title url : Text) : Text :=
  "Create a detailed outline for a comprehensive study document about \x27".toList
    ++ title ++ "\x27 (".toList ++ url
    ++ (").\n\n"
      ++ "Requirements:\n"
      ++ "- Identify EVERY major topic and subtopic from the content\n"
      ++ "- Use ## for major sections (aim for 4-10 major sections)\n"
      ++ "- Use ### for subsections within each major section\n"
      ++ "- Under each heading, list bullet points of key details to cover\n"
      ++ "- Include sections for: background/context, main topics, "
      ++ "connections between ideas, and implications/significance\n"
      ++ "- Order sections logically for a reader learning this material\n\n"
      ++ "SOURCE CONTENT:\n\n").toList
    ++ content

/-- `DeepDiveGenerator._system_prompt`. -/
def dd_system_prompt : Text :=
  ("You are an expert educator creating comprehensive, in-depth study notes "
    ++ "for an Obsidian vault. Your notes should be thorough enough to serve as "
    ++ "a standalone study resource — the reader should not need to visit the "
    ++ "original source.\n\n"
    ++ "Write in an objective, third-person, informational style. Do not use "
    ++ "first-person voice, reference the author or their opinions, or mirror "
    ++ "the perspective of the original source. Present all information as "
    ++ "factual, standalone documentation.\n\n"
    ++ "Output ONLY the markdown body (no YAML frontmatter, "
    ++ "no top-level # title heading). Use [[wikilinks]] for cross-references "
    ++ "to concepts that could be their own note.").toList

/-- `DeepDiveGenerator._user_prompt(content, title, url)` (the fallback
prompt). -/
def dd_user_prompt (content title url : Text) : Text :=
  "Create a comprehensive, in-depth study document on \x27".toList
    ++ title ++ "\x27 (".toList ++ url
    ++ (").\n\n"
      ++ "Requirements:\n"
      ++ "- Cover EVERY major topic, subtopic, and detail from the source material\n"
      ++ "- Use ## headings for major sections and ### for subsections\n"
      ++ "- Explain each concept thoroughly with full context, background, and connections\n"
      ++ "- Include specific details: names, dates, numbers, examples, and evidence\n"
      ++ "- Draw connections between different topics and ideas\n"
      ++ "- Use [[wikilinks]] for important terms, people, and related concepts\n"
      ++ "- Use bullet points, numbered lists, and block quotes where appropriate\n"
      ++ "- Include a ## Connections & Implications section at the end\n"
      ++ "- Be EXHAUSTIVE — leave nothing out. This should be a complete reference\n"
      ++ "- Do NOT include YAML frontmatter or a top-level # title heading\n\n"
      ++ "SOURCE CONTENT:\n\n").toList
    ++ content

/-- `DeepDiveGenerator._expand_system_prompt`. -/
def dd_expand_system_prompt : Text :=
  ("You are an expert educator writing one section of a comprehensive "
    ++ "study document for an Obsidian vault. Write this section with full "
    ++ "depth and detail — the reader should gain thorough understanding "
    ++ "from your writing alone.\n\n"
    ++ "Write in an objective, third-person, informational style. Do not use "
    ++ "first-person voice, reference the author, or mirror the perspective "
    ++ "of the original source. Present information as factual documentation.\n\n"
    ++ "Rules:\n"
    ++ "- Write comprehensive prose with full explanations\n"
    ++ "- Include specific details: names, dates, numbers, examples\n"
    ++ "- Use [[wikilinks]] for important terms and concepts\n"
    ++ "- Use ### subheadings to organize content within the section\n"
    ++ "- Use bullet points, numbered lists, and block quotes where appropriate\n"
    ++ "- Be thorough — do not summarize or abbreviate\n"
    ++ "- Output ONLY this section\x27s content (keep the ## heading)\n"
    ++ "- Do NOT include YAML frontmatter or a top-level # title heading").toList

/-- `DeepDiveGenerator._expand_user_prompt(content, title, url, section,
full_outline)`. -/
def dd_expand_user_prompt (content title url : Text) (s : OutlineSection)
    (full_outline : Text) : Text :=
  "Write the following section of a comprehensive study document about \x27".toList
    ++ title ++ "\x27 (".toList ++ url
    ++ ").\n\nSECTION TO WRITE:\n".toList ++ s.heading
    ++ "\nKey points to cover:\n".toList ++ s.points
    ++ "\n\nFULL DOCUMENT OUTLINE (for context on how this section fits):\n".toList
    ++ full_outline
    ++ ("\n\n"
      ++ "Write this section with complete depth and detail. Include all "
      ++ "relevant information from the source material below. Do not just "
      ++ "summarize — explain thoroughly.\n\n"
      ++ "SOURCE CONTENT:\n\n").toList
    ++ content

/-- The per-section expansion loop of `DeepDiveGenerator._generate_body`. -/
def dd_expand_loop (gen : GenFun) (max_output_tokens : Nat)
    (fitted title url outline : Text) :
    List OutlineSection → List Text × List LLMCall
  | [] => ([], [])
  | s :: rest =>
    let call : LLMCall :=
      ⟨dd_expand_system_prompt, dd_expand_user_prompt fitted title url s outline,
        max_output_tokens⟩
    let sc := gen call.system call.user max_output_tokens
    let next := dd_expand_loop gen max_output_tokens fitted title url outline rest
    (sc :: next.1, call :: next.2)

/-- `DeepDiveGenerator._generate_body(content, title, url)`: outline
call, section parse, fallback single call on an empty parse, otherwise
one expansion call per section on fitted content, assembled with blank
lines. -/
def dd_generate_body (gen : GenFun) (max_input_tokens max_output_tokens : Nat)
    (content title url : Text) : Text × List LLMCall :=
  let outline := gen dd_outline_system_prompt
    (dd_outline_user_prompt content title url) 4096
  let outlineCall : LLMCall :=
    ⟨dd_outline_system_prompt, dd_outline_user_prompt content title url, 4096⟩
  let sections := parse_outline_sections outline
  if sections.isEmpty then
    (gen dd_system_prompt (dd_user_prompt content title url) max_output_tokens,
      [outlineCall, ⟨dd_system_prompt, dd_user_prompt content title url,
        max_output_tokens⟩])
  else
    let fitted := fit_content_to_context max_input_tokens content [outline, overhead_buffer]
    let exps := dd_expand_loop gen max_output_tokens fitted title url outline sections
    (joinSep "\n\n".toList exps.1, outlineCall :: exps.2)

/-! ## Properties -/

/-- C8: with expected title `"Mars - Summary"` (note type `summary`),
`_clean_output` removes a leading `# Mars` heading line, because the
normalized heading is a prefix of the normalized title, but preserves a
leading `# Unrelated Topic` heading line. -/
theorem clean_output_duplicate_heading :
    clean_output "summary".toList "Mars - Summary".toList
        "# Mars\nThe red planet.".toList = "The red planet.".toList
      ∧ clean_output "summary".toList "Mars - Summary".toList
        "# Unrelated Topic\nThe red planet.".toList
        = "# Unrelated Topic\nThe red planet.".toList := by
  constructor <;> decide

/-- C10: `_clean_output` can return the empty string for non-empty
input: a raw text that is nothing but a level-1 heading whose text is a
prefix of the expected title is dropped entirely. -/
theorem clean_output_can_empty :
    clean_output "summary".toList "Mars - Summary".toList "# Mars".toList = []
      ∧ "# Mars".toList ≠ [] := by
  constructor <;> decide

/-- The token allowance of `_fit_content_to_context`, as the spec states
it: the input budget minus the fixed 10 000-token overhead minus the
other parts' estimates, with a fixed minimum floor of 10 000 substituted
when the computed allowance is not positive. -/
def fit_allowance (max_input_tokens : Nat) (other_parts : List Text) : Nat :=
  let a0 : Int :=
    (max_input_tokens : Int) - 10000 - ((other_parts.map estimate_tokens).sum : Nat)
  if a0 ≤ 0 then 10000 else a0.toNat

theorem rfind_bb_lt_length {t : Text} {p : Nat} (h : rfind_bb t = some p) :
    p < t.length := by
  have hx : p ∈ ((List.range t.length).filter
      (fun i => ['\n', '\n'].isPrefixOf (t.drop i))).getLast? := h
  obtain ⟨hne, hp⟩ := List.mem_getLast?_eq_getLast hx
  have hm := List.getLast_mem hne
  rw [← hp] at hm
  exact List.mem_range.mp (List.mem_of_mem_filter hm)

/-- Unfolding of `fit_content_to_context` through `fit_allowance`. -/
theorem fit_content_to_context_eq (m : Nat) (content : Text) (parts : List Text) :
    fit_content_to_context m content parts =
      (if estimate_tokens content ≤ fit_allowance m parts then content
        else
          (match rfind_bb (content.take (fit_allowance m parts * 4)) with
            | some last_para =>
              if fit_allowance m parts * 4 / 2 < last_para then
                (content.take (fit_allowance m parts * 4)).take last_para
              else content.take (fit_allowance m parts * 4)
            | none => content.take (fit_allowance m parts * 4)) ++ trunc_marker) := rfl

/-- C7: `_fit_content_to_context` returns the content unchanged when its
estimate fits the allowance; otherwise it returns a prefix of at most
`4 * allowance` characters — cut back to the last paragraph boundary of
the truncated region when that boundary lies past its midpoint,
otherwise cut at the hard character limit — with the truncation marker
appended.  The allowance itself is floored at 10 000 tokens when the
budget arithmetic is not positive. -/
theorem fit_content_to_context_spec (m : Nat) (content : Text) (parts : List Text) :
    (estimate_tokens content ≤ fit_allowance m parts →
      fit_content_to_context m content parts = content)
    ∧ (fit_allowance m parts < estimate_tokens content →
      ∃ k, k ≤ 4 * fit_allowance m parts
        ∧ fit_content_to_context m content parts = content.take k ++ trunc_marker
        ∧ (match rfind_bb (content.take (fit_allowance m parts * 4)) with
            | some p =>
              if fit_allowance m parts * 4 / 2 < p then k = p
              else k = fit_allowance m parts * 4
            | none => k = fit_allowance m parts * 4)) := by
  rw [fit_content_to_context_eq]
  set A := fit_allowance m parts with hA
  constructor
  · intro h
    rw [if_pos h]
  · intro h
    rw [if_neg (by omega)]
    cases hbb : rfind_bb (content.take (A * 4)) with
    | none => exact ⟨A * 4, by omega, rfl, by simp⟩
    | some p =>
      have hplt : p < (content.take (A * 4)).length := rfind_bb_lt_length hbb
      have hple : p ≤ A * 4 := by
        have := List.length_take_le (A * 4) content
        omega
      by_cases hmid : A * 4 / 2 < p
      · refine ⟨p, by omega, ?_, by simp [hmid]⟩
        show (if A * 4 / 2 < p then (content.take (A * 4)).take p
            else content.take (A * 4)) ++ trunc_marker
          = content.take p ++ trunc_marker
        rw [if_pos hmid, List.take_take, Nat.min_eq_left hple]
      · refine ⟨A * 4, by omega, ?_, by simp [hmid]⟩
        show (if A * 4 / 2 < p then (content.take (A * 4)).take p
            else content.take (A * 4)) ++ trunc_marker
          = content.take (A * 4) ++ trunc_marker
        rw [if_neg hmid]

/-- Concrete instance of `fit_content_to_context_spec`: a 4-character
content fits a 12 000-token budget with no other parts and is returned
unchanged. -/
theorem fit_content_to_context_spec_witness :
    estimate_tokens "abcd".toList ≤ fit_allowance 12000 []
      ∧ fit_content_to_context 12000 "abcd".toList [] = "abcd".toList :=
  ⟨by decide, (fit_content_to_context_spec 12000 "abcd".toList []).1 (by decide)⟩

/-- C6: when the plan/outline parser yields zero items, each multi-pass
pipeline recovers locally with exactly one direct generation call using
the style's base system and user prompts, and returns that call's
result; no other call follows the plan/outline call. -/
theorem plan_parse_fallback (gen : GenFun) (max_input_tokens max_output_tokens : Nat)
    (mi vi content title url : Text) :
    (parse_topics (gen practice_plan_system_prompt
        (practice_plan_user_prompt content title url) 3072) = [] →
      practice_generate_body gen max_input_tokens max_output_tokens mi vi content title url
        = (gen (practice_system_prompt mi vi) (practice_user_prompt content title url)
            max_output_tokens,
          [⟨practice_plan_system_prompt, practice_plan_user_prompt content title url, 3072⟩,
            ⟨practice_system_prompt mi vi, practice_user_prompt content title url,
              max_output_tokens⟩]))
    ∧ (parse_outline_sections (gen dd_outline_system_prompt
        (dd_outline_user_prompt content title url) 4096) = [] →
      dd_generate_body gen max_input_tokens max_output_tokens content title url
        = (gen dd_system_prompt (dd_user_prompt content title url) max_output_tokens,
          [⟨dd_outline_system_prompt, dd_outline_user_prompt content title url, 4096⟩,
            ⟨dd_system_prompt, dd_user_prompt content title url, max_output_tokens⟩])) := by
  constructor
  · intro h
    simp only [practice_generate_body, h, List.isEmpty_nil, if_pos]
  · intro h
    simp only [dd_generate_body, h, List.isEmpty_nil, if_pos]

set_option maxRecDepth 40000 in
/-- Concrete instance of `plan_parse_fallback`: a provider that answers
every call with the empty string yields an unparsable plan, and both
pipelines fall back to the single base-prompt call. -/
theorem plan_parse_fallback_witness :
    parse_topics ((fun (_ _ : Text) (_ : Nat) => ([] : Text)) practice_plan_system_prompt
        (practice_plan_user_prompt [] [] []) 3072) = []
      ∧ practice_generate_body (fun _ _ _ => []) 100000 8192 [] [] [] [] []
        = ([], [⟨practice_plan_system_prompt, practice_plan_user_prompt [] [] [], 3072⟩,
            ⟨practice_system_prompt [] [], practice_user_prompt [] [] [], 8192⟩]) :=
  ⟨by decide,
    ((plan_parse_fallback (fun _ _ _ => []) 100000 8192 [] [] [] [] []).1 (by decide)).trans
      (by decide)⟩

theorem practice_sections_loop_calls (gen : GenFun) (mo : Nat)
    (mi vi fitted title url : Text) (ts : List Topic) (qn : Nat) :
    (practice_sections_loop gen mo mi vi fitted title url qn ts).2
      = (List.range ts.length).map (fun i =>
          ⟨practice_section_system_prompt mi vi,
            practice_section_user_prompt fitted title url (ts.getD i ⟨[], [], 0⟩)
              (qn + ((ts.take i).map Topic.count).sum), mo⟩) := by
  induction ts generalizing qn with
  | nil => simp [practice_sections_loop]
  | cons t ts ih =>
    simp only [practice_sections_loop, ih (qn + t.count), List.length_cons,
      List.range_succ_eq_map, List.map_cons, List.map_map, List.cons.injEq]
    refine ⟨?_, ?_⟩
    · simp only [List.getD_cons_zero, List.take_zero, List.map_nil, List.sum_nil,
        Nat.add_zero]
    · apply List.map_congr_left
      intro i _
      simp only [Function.comp_apply, Nat.succ_eq_add_one, List.getD_cons_succ,
        List.take_succ_cons, List.map_cons, List.sum_cons, Nat.add_assoc]

/-- C9: in `PracticeGenerator._generate_body`, the starting question
number of the `i`-th topic's section call is `1` plus the sum of the
*planned* counts of the earlier topics (each defaulting to 5 when the
plan line had no parsable count) — it depends only on the parsed plan,
never on what the earlier generation calls actually produced. -/
theorem practice_question_numbering (gen : GenFun)
    (max_input_tokens max_output_tokens : Nat) (mi vi content title url : Text)
    (plan : Text) (topics : List Topic) (fitted : Text)
    (hplan : plan = gen practice_plan_system_prompt
      (practice_plan_user_prompt content title url) 3072)
    (htopics : topics = parse_topics plan)
    (hfit : fitted = fit_content_to_context max_input_tokens content
      [plan, overhead_buffer])
    (hne : topics ≠ []) (i : Nat) (hi : i < topics.length) :
    (practice_generate_body gen max_input_tokens max_output_tokens
        mi vi content title url).2.getD (i + 1) ⟨[], [], 0⟩
      = ⟨practice_section_system_prompt mi vi,
          practice_section_user_prompt fitted title url (topics.getD i ⟨[], [], 0⟩)
            (1 + ((topics.take i).map Topic.count).sum),
          max_output_tokens⟩ := by
  subst hfit htopics hplan
  have hemp : (parse_topics (gen practice_plan_system_prompt
      (practice_plan_user_prompt content title url) 3072)).isEmpty = false := by
    cases htop : parse_topics (gen practice_plan_system_prompt
        (practice_plan_user_prompt content title url) 3072) with
    | nil => exact absurd htop hne
    | cons a l => rfl
  simp only [practice_generate_body, hemp, Bool.false_eq_true, if_false,
    List.getD_cons_succ]
  rw [practice_sections_loop_calls]
  simp only [List.getD, List.get?_eq_getElem?, List.getElem?_map, List.getElem?_range,
    hi, Option.map_some', Option.getD_some]

set_option maxRecDepth 100000 in
/-- Concrete instance of `practice_question_numbering`: a plan with two
topics planned at 3 and 4 questions makes the second topic's section
call start numbering at question 1 + 3 = 4. -/
theorem practice_question_numbering_witness :
    parse_topics "1. **A** (3 questions: mc)\n2. **B** (4 questions: tf)".toList
        = [⟨"A".toList, [], 3⟩, ⟨"B".toList, [], 4⟩]
      ∧ (practice_generate_body
            (fun _ _ _ => "1. **A** (3 questions: mc)\n2. **B** (4 questions: tf)".toList)
            100000 8192 [] [] "src".toList "T".toList "u".toList).2.getD 2 ⟨[], [], 0⟩
        = ⟨practice_section_system_prompt [] [],
            practice_section_user_prompt "src".toList "T".toList "u".toList
              ⟨"B".toList, [], 4⟩ 4, 8192⟩ :=
  ⟨by decide,
    (practice_question_numbering
        (fun _ _ _ => "1. **A** (3 questions: mc)\n2. **B** (4 questions: tf)".toList)
        100000 8192 [] [] "src".toList "T".toList "u".toList
        "1. **A** (3 questions: mc)\n2. **B** (4 questions: tf)".toList
        [⟨"A".toList, [], 3⟩, ⟨"B".toList, [], 4⟩] "src".toList
        rfl (by decide) (by decide) (by decide) 1 (by decide)).trans (by decide)⟩

theorem merge_round_length (gen : GenFun) (mo : Nat) (title : Text) :
    ∀ l : List Text, (merge_round gen mo title l).1.length = (l.length + 1) / 2
  | [] => by simp [merge_round]
  | [_] => by simp [merge_round]
  | a :: b :: rest => by
    simp only [merge_round, List.length_cons]
    rw [merge_round_length gen mo title rest]
    omega

theorem hier_loop_rounds (gen : GenFun) (mo : Nat) (title : Text) :
    ∀ (fuel : Nat) (l : List Text), l.length ≤ fuel →
      (hier_loop gen mo title fuel l).2.1 = Nat.clog 2 l.length
  | 0, l, h => by
    have h0 : l.length = 0 := Nat.le_zero.mp h
    simp [hier_loop, h0]
  | fuel + 1, l, h => by
    by_cases hl : 1 < l.length
    · have hlen := merge_round_length gen mo title l
      have hfuel : (merge_round gen mo title l).1.length ≤ fuel := by omega
      simp only [hier_loop, if_pos hl]
      rw [hier_loop_rounds gen mo title fuel _ hfuel, hlen]
      conv_rhs => rw [@Nat.clog_of_two_le 2 l.length (by norm_num) (by omega)]
      have h21 : l.length + 2 - 1 = l.length + 1 := by omega
      rw [h21]
    · simp only [hier_loop, if_neg hl]
      rw [Nat.clog_of_right_le_one (by omega)]

theorem hier_loop_terminal (gen : GenFun) (mo : Nat) (title : Text) :
    ∀ (fuel : Nat) (l : List Text), l.length ≤ fuel → l ≠ [] →
      (hier_loop gen mo title fuel l).1.length = 1
  | 0, l, h, hne => absurd (List.length_eq_zero.mp (Nat.le_zero.mp h)) hne
  | fuel + 1, l, h, hne => by
    by_cases hl : 1 < l.length
    · have hlen := merge_round_length gen mo title l
      simp only [hier_loop, if_pos hl]
      refine hier_loop_terminal gen mo title fuel _ (by omega) ?_
      intro hc
      rw [hc] at hlen
      simp at hlen
      omega
    · simp only [hier_loop, if_neg hl]
      have hpos : 0 < l.length := List.length_pos.mpr hne
      omega

/-- C5: hierarchical reduction on `n ≥ 2` partial results halves the
list each round (`n` becomes `⌈n/2⌉`, a strict decrease), terminates
with exactly one result, and performs exactly `⌈log₂ n⌉` rounds. -/
theorem hierarchical_reduction_rounds (gen : GenFun) (mo : Nat) (title : Text)
    (l : List Text) (h : 2 ≤ l.length) :
    (merge_round gen mo title l).1.length = (l.length + 1) / 2
      ∧ (l.length + 1) / 2 < l.length
      ∧ (hier_loop gen mo title l.length l).2.1 = Nat.clog 2 l.length
      ∧ (hier_loop gen mo title l.length l).1.length = 1 :=
  ⟨merge_round_length gen mo title l, by omega,
    hier_loop_rounds gen mo title l.length l le_rfl,
    hier_loop_terminal gen mo title l.length l le_rfl
      (fun hc => by simp [hc] at h)⟩

/-- Concrete instance of `hierarchical_reduction_rounds`: three partial
results are reduced in `⌈log₂ 3⌉` rounds. -/
theorem hierarchical_reduction_rounds_witness :
    2 ≤ ([['a'], ['b'], ['c']] : List Text).length
      ∧ (hier_loop (fun _ _ _ => []) 8 [] 3 [['a'], ['b'], ['c']]).2.1 = Nat.clog 2 3 :=
  ⟨by decide,
    (hierarchical_reduction_rounds (fun _ _ _ => []) 8 [] [['a'], ['b'], ['c']]
      (by decide)).2.2.1⟩

/-- C4: the reduce step of the map-reduce orchestration.  A single
partial result is returned unmodified with no reduce call; two or more
partial results whose separator-joined concatenation fits
`max_input_tokens - 10_000` trigger exactly one merge call whose result
is returned; otherwise the single merge call is skipped and the
hierarchical pairwise reduction loop supplies the result and the calls. -/
theorem map_reduce_orchestration (gen : GenFun)
    (genBody : Text → Text × List LLMCall) (max_input_tokens max_output_tokens : Nat)
    (title content : Text) (partial_results : List Text) (mapCalls : List LLMCall)
    (combined : Text)
    (hpart : partial_results
      = (chunk_content content max_input_tokens).map (fun c => (genBody c).1))
    (hcalls : mapCalls
      = ((chunk_content content max_input_tokens).map (fun c => (genBody c).2)).flatten)
    (hcomb : combined = joinSep separator_text partial_results) :
    (partial_results.length = 1 →
      generate_from_chunks gen genBody max_input_tokens max_output_tokens title content
        = (partial_results.headD [], mapCalls))
    ∧ (2 ≤ partial_results.length →
        (estimate_tokens combined : Int) ≤ (max_input_tokens : Int) - 10000 →
      generate_from_chunks gen genBody max_input_tokens max_output_tokens title content
        = (gen reduce_system_prompt (reduce_user_prompt title combined) max_output_tokens,
          mapCalls ++ [⟨reduce_system_prompt, reduce_user_prompt title combined,
            max_output_tokens⟩]))
    ∧ (2 ≤ partial_results.length →
        (max_input_tokens : Int) - 10000 < (estimate_tokens combined : Int) →
      generate_from_chunks gen genBody max_input_tokens max_output_tokens title content
        = ((hier_loop gen max_output_tokens title
              partial_results.length partial_results).1.headD [],
          mapCalls ++ (hier_loop gen max_output_tokens title
              partial_results.length partial_results).2.2)) := by
  subst hcomb hcalls hpart
  refine ⟨?_, ?_, ?_⟩
  · intro h1
    simp only [generate_from_chunks]
    rw [if_pos h1]
  · intro h2 hle
    simp only [generate_from_chunks, reduce_results]
    rw [if_neg (by omega), if_pos hle]
  · intro h2 hgt
    simp only [generate_from_chunks, reduce_results]
    rw [if_neg (by omega), if_neg (by omega)]

set_option maxRecDepth 100000 in
/-- Concrete instance of `map_reduce_orchestration`: a 205-character
document with two `## ` sections under a 10 040-token budget splits into
two chunks; the two partial results fit the reduce budget, so exactly
one merge call is issued and its result returned. -/
theorem map_reduce_orchestration_witness :
    2 ≤ ([['r'], ['r']] : List Text).length
      ∧ (estimate_tokens ("r\n\n---\n\nr".toList) : Int) ≤ (10040 : Int) - 10000
      ∧ generate_from_chunks (fun _ _ _ => ['R']) (fun _ => (['r'], [])) 10040 8 ['T']
          ("## a\n".toList ++ List.replicate 95 'x'
            ++ "\n## b\n".toList ++ List.replicate 99 'y')
        = (['R'], [⟨reduce_system_prompt,
            reduce_user_prompt ['T'] "r\n\n---\n\nr".toList, 8⟩]) :=
  ⟨by decide, by decide,
    ((map_reduce_orchestration (fun _ _ _ => ['R']) (fun _ => (['r'], [])) 10040 8 ['T']
        ("## a\n".toList ++ List.replicate 95 'x'
          ++ "\n## b\n".toList ++ List.replicate 99 'y')
        [['r'], ['r']] [] "r\n\n---\n\nr".toList
        (by decide) (by decide) (by decide)).2.1 (by decide) (by decide)).trans
      (by decide)⟩

theorem length_dropWhile_le (p : Char → Bool) (l : List Char) :
    (l.dropWhile p).length ≤ l.length :=
  (List.dropWhile_sublist p).length_le

theorem all_white_of_strip_nil {t : Text} (h : pyStrip t = []) :
    ∀ c ∈ t, pyWhite c = true := by
  unfold pyStrip pyRstrip at h
  rw [List.reverse_eq_nil_iff, List.dropWhile_eq_nil_iff] at h
  intro c hc
  by_cases hw : pyWhite c = true
  · exact hw
  · exfalso
    rw [← List.takeWhile_append_dropWhile pyWhite t] at hc
    rcases List.mem_append.mp hc with hc1 | hc2
    · exact hw (List.mem_takeWhile_imp hc1)
    · exact hw (h c (List.mem_reverse.mpr hc2))

theorem filterNW_eq_nil {t : Text} (h : pyStrip t = []) : filterNW t = [] := by
  unfold filterNW
  rw [List.filter_eq_nil_iff]
  intro c hc
  simp [all_white_of_strip_nil h c hc]

theorem filterNW_append (a b : Text) :
    filterNW (a ++ b) = filterNW a ++ filterNW b :=
  List.filter_append a b

theorem split_marker_go_flatten (marker : Text) :
    ∀ (t acc : Text) (b : Bool),
      (split_marker_go marker acc b t).flatten = acc.reverse ++ t
  | [], acc, b => by simp [split_marker_go]
  | c :: cs, acc, b => by
    simp only [split_marker_go]
    split
    · simp [split_marker_go_flatten marker cs [c] (c == '\n')]
    · simp [split_marker_go_flatten marker cs (c :: acc) (c == '\n')]

theorem split_at_marker_flatten (marker s : Text) :
    (split_at_marker marker s).flatten = s := by
  simpa using split_marker_go_flatten marker s [] true

theorem filterNW_cons_nl (cs : Text) : filterNW ('\n' :: cs) = filterNW cs := by
  simp +decide [filterNW, List.filter_cons]

theorem filterNW_dropWhile_nl (l : Text) :
    filterNW (l.dropWhile (fun d => d == '\n')) = filterNW l := by
  induction l with
  | nil => rfl
  | cons c cs ih =>
    rw [List.dropWhile_cons]
    by_cases h : (c == '\n') = true
    · rw [if_pos h, ih]
      have hc : c = '\n' := by simpa using h
      subst hc
      rw [filterNW_cons_nl]
    · rw [if_neg h]

theorem split_nn_go_filter :
    ∀ (fuel : Nat) (t acc : Text), t.length ≤ fuel →
      filterNW (split_nn_go fuel acc t).flatten = filterNW (acc.reverse ++ t)
  | fuel, [], acc, _ => by
    cases fuel <;> simp [split_nn_go]
  | 0, c :: cs, acc, h => by simp at h
  | fuel + 1, c :: cs, acc, h => by
    simp only [split_nn_go]
    split
    · rename_i hcond
      rw [Bool.and_eq_true] at hcond
      have hc : c = '\n' := by simpa using hcond.1
      obtain ⟨cs', rfl⟩ : ∃ cs', cs = '\n' :: cs' := by
        cases cs with
        | nil => simp at hcond
        | cons d ds =>
          have hd : d = '\n' := by simpa using hcond.2
          exact ⟨ds, by rw [hd]⟩
      have hfuel : ((cs'.drop 0).dropWhile (fun d => d == '\n')).length ≤ fuel := by
        have h1 := length_dropWhile_le (fun d => d == '\n') (cs'.drop 0)
        simp only [List.drop_zero] at h1 ⊢
        simp only [List.length_cons] at h
        omega
      rw [List.flatten_cons, filterNW_append,
        split_nn_go_filter fuel _ [] (by simpa using hfuel)]
      subst hc
      simp only [List.reverse_nil, List.nil_append, List.drop_succ_cons, List.drop_zero]
      rw [filterNW_dropWhile_nl cs', filterNW_append, filterNW_cons_nl,
        filterNW_cons_nl]
    · rw [split_nn_go_filter fuel cs (c :: acc) (by simp at h; omega)]
      simp

theorem split_nn_filter (t : Text) :
    filterNW (split_nn t).flatten = filterNW t := by
  simpa using split_nn_go_filter t.length t [] le_rfl

theorem merge_go_filter (max_tokens : Nat) :
    ∀ (ss : List Text) (cur : Text) (chunks : List Text),
      filterNW (merge_go max_tokens ss cur chunks).flatten
        = filterNW (chunks.flatten ++ cur ++ ss.flatten)
  | [], cur, chunks => by
    simp only [merge_go]
    by_cases h : (pyStrip cur).isEmpty
    · have hf : filterNW cur = [] := filterNW_eq_nil (List.isEmpty_iff.mp h)
      rw [if_pos h]
      by_cases h2 : chunks.isEmpty
      · rw [if_pos h2, if_pos h]
        rw [List.isEmpty_iff.mp h2]
        simp only [List.flatten_nil, List.nil_append, List.append_nil]
        rw [hf]
        rfl
      · rw [if_neg h2]
        simp only [List.flatten_nil, List.append_nil]
        rw [filterNW_append, hf, List.append_nil]
    · rw [if_neg h]
      rw [if_neg (by simp)]
      simp only [List.flatten_nil, List.append_nil, List.flatten_append,
        List.flatten_cons]
  | s :: ss, cur, chunks => by
    simp only [merge_go]
    by_cases h1 : (pyStrip s).isEmpty
    · rw [if_pos h1, merge_go_filter max_tokens ss cur chunks]
      have hf : filterNW s = [] := filterNW_eq_nil (List.isEmpty_iff.mp h1)
      simp [List.flatten_cons, filterNW_append, hf]
    · rw [if_neg h1]
      by_cases h2 : estimate_tokens (cur ++ s) ≤ max_tokens
      · rw [if_pos h2, merge_go_filter max_tokens ss (cur ++ s) chunks]
        simp [List.flatten_cons, filterNW_append, List.append_assoc]
      · rw [if_neg h2]
        by_cases h3 : (pyStrip cur).isEmpty
        · rw [if_pos h3, merge_go_filter max_tokens ss s chunks]
          have hf : filterNW cur = [] := filterNW_eq_nil (List.isEmpty_iff.mp h3)
          simp [List.flatten_cons, filterNW_append, hf]
        · rw [if_neg h3, merge_go_filter max_tokens ss s (chunks ++ [cur])]
          simp [List.flatten_cons, List.flatten_append, filterNW_append,
            List.append_assoc]

theorem merge_sections_filter (sections : List Text) (max_tokens : Nat) :
    filterNW (merge_sections sections max_tokens).flatten
      = filterNW sections.flatten := by
  simpa using merge_go_filter max_tokens sections [] []

theorem filterNW_flatten_map (g : Text → List Text) :
    ∀ l : List Text, (∀ x ∈ l, filterNW (g x).flatten = filterNW x) →
      filterNW ((l.map g).flatten).flatten = filterNW l.flatten
  | [], _ => rfl
  | x :: xs, h => by
    simp only [List.map_cons, List.flatten_cons, List.flatten_append, filterNW_append]
    rw [h x (List.mem_cons_self x xs),
      filterNW_flatten_map g xs (fun y hy => h y (List.mem_cons_of_mem x hy))]

/-- C1: lossless chunking.  For every input text and token budget,
concatenating the chunks returned by `split_by_headings`, in order,
preserves the input's non-whitespace characters exactly: nothing is
lost, duplicated or reordered, only chunk-boundary whitespace may
differ. -/
theorem chunking_lossless (markdown : Text) (max_tokens : Nat) :
    filterNW (split_by_headings markdown max_tokens).flatten = filterNW markdown := by
  simp only [split_by_headings]
  split
  · simp
  · split
    · rw [merge_sections_filter, split_at_marker_flatten]
    · have hg2 : ∀ c : Text,
          filterNW ((if max_tokens < estimate_tokens c then
            split_by_paragraphs c max_tokens else [c]).flatten) = filterNW c := by
        intro c
        by_cases hc : max_tokens < estimate_tokens c
        · rw [if_pos hc]
          unfold split_by_paragraphs
          rw [merge_sections_filter, split_nn_filter]
        · rw [if_neg hc]
          simp
      have hg1 : ∀ c : Text,
          filterNW ((if max_tokens < estimate_tokens c then
            merge_sections (split_at_marker h1_marker c) max_tokens
            else [c]).flatten) = filterNW c := by
        intro c
        by_cases hc : max_tokens < estimate_tokens c
        · rw [if_pos hc, merge_sections_filter, split_at_marker_flatten]
        · rw [if_neg hc]
          simp
      rw [filterNW_flatten_map _ _ (fun x _ => hg2 x),
        filterNW_flatten_map _ _ (fun x _ => hg1 x),
        merge_sections_filter, split_at_marker_flatten]

/-- Whether a text contains a blank-line (paragraph) boundary, i.e. two
consecutive newlines. -/
def hasBB : Text → Bool
  | [] => false
  | [_] => false
  | a :: b :: t => (a == '\n' && b == '\n') || hasBB (b :: t)

theorem hasBB_append_one : ∀ (xs : Text) (c : Char), hasBB xs = false →
    (xs.getLast? = some '\n' → c ≠ '\n') → hasBB (xs ++ [c]) = false
  | [], c, _, _ => rfl
  | [a], c, _, h2 => by
    show ((a == '\n') && (c == '\n') || hasBB [c]) = false
    have hc : hasBB [c] = false := rfl
    rw [hc, Bool.or_false]
    by_cases ha : a = '\n'
    · have hcne : (c == '\n') = false := by simpa using h2 (by rw [ha]; rfl)
      rw [hcne, Bool.and_false]
    · have ha' : (a == '\n') = false := by simpa using ha
      rw [ha', Bool.false_and]
  | a :: b :: t, c, h, h2 => by
    have h' : ((a == '\n') && (b == '\n')) = false ∧ hasBB (b :: t) = false := by
      simpa [hasBB, Bool.or_eq_false_iff] using h
    show ((a == '\n') && (b == '\n') || hasBB ((b :: t) ++ [c])) = false
    rw [hasBB_append_one (b :: t) c h'.2
      (fun hl => h2 (by rw [List.getLast?_cons_cons]; exact hl)), h'.1, Bool.or_false]

theorem split_nn_go_noBB :
    ∀ (fuel : Nat) (t acc : Text), t.length ≤ fuel →
      hasBB acc.reverse = false →
      (acc.head? = some '\n' → t.head? ≠ some '\n') →
      ∀ q ∈ split_nn_go fuel acc t, hasBB q = false
  | fuel, [], acc, _, hbb, _ => by
    intro q hq
    cases fuel <;> simp only [split_nn_go, List.mem_singleton] at hq <;>
      exact hq ▸ hbb
  | 0, c :: cs, acc, h, _, _ => by simp at h
  | fuel + 1, c :: cs, acc, h, hbb, hj => by
    simp only [split_nn_go]
    split
    · rename_i hcond
      intro q hq
      rcases List.mem_cons.mp hq with rfl | hq2
      · exact hbb
      · refine split_nn_go_noBB fuel _ [] ?_ rfl (by simp) q hq2
        have h1 := length_dropWhile_le (fun d => d == '\n') (cs.drop 1)
        have h2 : (cs.drop 1).length ≤ cs.length := by
          simp [List.length_drop]
        simp only [List.length_cons] at h
        omega
    · rename_i hcond
      intro q hq
      have hbb' : hasBB (c :: acc).reverse = false := by
        rw [List.reverse_cons]
        refine hasBB_append_one acc.reverse c hbb ?_
        rw [List.getLast?_reverse]
        intro hl
        exact fun hc => (hj hl) (by rw [hc]; rfl)
      have hj' : (c :: acc).head? = some '\n' → cs.head? ≠ some '\n' := by
        intro hch hcs
        apply hcond
        have hc : c = '\n' := by simpa using hch
        rw [hc, hcs]
        rfl
      exact split_nn_go_noBB fuel cs (c :: acc) (by simp at h; omega) hbb' hj' q hq

theorem split_nn_noBB (t : Text) : ∀ q ∈ split_nn t, hasBB q = false :=
  split_nn_go_noBB t.length t [] le_rfl rfl (by simp)

theorem merge_go_mem (max_tokens : Nat) (Q : Text → Prop) :
    ∀ (ss : List Text) (cur : Text) (chunks : List Text),
      (∀ s ∈ ss, Q s) → (estimate_tokens cur ≤ max_tokens ∨ Q cur) →
      (∀ c ∈ chunks, estimate_tokens c ≤ max_tokens ∨ Q c) →
      ∀ c ∈ merge_go max_tokens ss cur chunks,
        estimate_tokens c ≤ max_tokens ∨ Q c
  | [], cur, chunks, _, hcur, hch => by
    intro c hc
    simp only [merge_go] at hc
    by_cases h : (pyStrip cur).isEmpty
    · rw [if_pos h] at hc
      by_cases h2 : chunks.isEmpty
      · rw [if_pos h2, if_pos h] at hc
        simp at hc
      · rw [if_neg h2] at hc
        exact hch c hc
    · rw [if_neg h, if_neg (by simp)] at hc
      rcases List.mem_append.mp hc with hc1 | hc2
      · exact hch c hc1
      · rw [List.mem_singleton.mp hc2]
        exact hcur
  | s :: ss, cur, chunks, hss, hcur, hch => by
    intro c hc
    simp only [merge_go] at hc
    by_cases h1 : (pyStrip s).isEmpty
    · rw [if_pos h1] at hc
      exact merge_go_mem max_tokens Q ss cur chunks
        (fun x hx => hss x (List.mem_cons_of_mem s hx)) hcur hch c hc
    · rw [if_neg h1] at hc
      by_cases h2 : estimate_tokens (cur ++ s) ≤ max_tokens
      · rw [if_pos h2] at hc
        exact merge_go_mem max_tokens Q ss (cur ++ s) chunks
          (fun x hx => hss x (List.mem_cons_of_mem s hx)) (Or.inl h2) hch c hc
      · rw [if_neg h2] at hc
        refine merge_go_mem max_tokens Q ss s _
          (fun x hx => hss x (List.mem_cons_of_mem s hx))
          (Or.inr (hss s (List.mem_cons_self s ss))) ?_ c hc
        by_cases h3 : (pyStrip cur).isEmpty
        · rw [if_pos h3]
          exact hch
        · rw [if_neg h3]
          intro x hx
          rcases List.mem_append.mp hx with hx1 | hx2
          · exact hch x hx1
          · rw [List.mem_singleton.mp hx2]
            exact hcur

/-- C3: budget respect, best effort.  Every chunk returned by
`split_by_headings` either fits the budget or contains no blank-line
(paragraph) boundary — the only permitted violations are single
unsplittable paragraphs. -/
theorem chunk_budget_best_effort (markdown : Text) (max_tokens : Nat) :
    ∀ c ∈ split_by_headings markdown max_tokens,
      estimate_tokens c ≤ max_tokens ∨ hasBB c = false := by
  intro c hc
  simp only [split_by_headings] at hc
  by_cases h0 : estimate_tokens markdown ≤ max_tokens
  · rw [if_pos h0] at hc
    rw [List.mem_singleton.mp hc]
    exact Or.inl h0
  · rw [if_neg h0] at hc
    by_cases h1 : (merge_sections (split_at_marker h2_marker markdown)
        max_tokens).all (fun c => estimate_tokens c ≤ max_tokens)
    · rw [if_pos h1] at hc
      exact Or.inl (by simpa using List.all_eq_true.mp h1 c hc)
    · rw [if_neg h1] at hc
      obtain ⟨l, hl, hcl⟩ := List.mem_flatten.mp hc
      obtain ⟨r, _, rfl⟩ := List.mem_map.mp hl
      by_cases hr : max_tokens < estimate_tokens r
      · rw [if_pos hr] at hcl
        exact merge_go_mem max_tokens (fun x => hasBB x = false) (split_nn r) [] []
          (fun q hq => split_nn_noBB r q hq) (Or.inl (by simp [estimate_tokens]))
          (by simp) c hcl
      · rw [if_neg hr] at hcl
        rw [List.mem_singleton.mp hcl]
        exact Or.inl (by omega)

/-- Concrete instance of `chunk_budget_best_effort`: a text that fits
the budget is its own single chunk and satisfies the bound. -/
theorem chunk_budget_best_effort_witness :
    ['x'] ∈ split_by_headings ['x'] 5
      ∧ (estimate_tokens ['x'] ≤ 5 ∨ hasBB ['x'] = false) :=
  ⟨by decide, chunk_budget_best_effort ['x'] 5 ['x'] (by decide)⟩

theorem dropWhile_idem (p : Char → Bool) (l : List Char) :
    (l.dropWhile p).dropWhile p = l.dropWhile p := by
  induction l with
  | nil => rfl
  | cons a l ih =>
    rw [List.dropWhile_cons]
    by_cases h : p a = true
    · rw [if_pos h]
      exact ih
    · rw [if_neg h, List.dropWhile_cons, if_neg h]

theorem dropWhile_append (p : Char → Bool) (l₁ l₂ : List Char) :
    (l₁ ++ l₂).dropWhile p
      = if (l₁.dropWhile p).isEmpty then l₂.dropWhile p
        else l₁.dropWhile p ++ l₂ := by
  induction l₁ with
  | nil => simp
  | cons a l ih =>
    rw [List.cons_append, List.dropWhile_cons, List.dropWhile_cons]
    by_cases h : p a = true
    · rw [if_pos h, if_pos h, ih]
    · rw [if_neg h, if_neg h, if_neg (by simp)]
      rfl

theorem pyRstrip_idem (t : Text) : pyRstrip (pyRstrip t) = pyRstrip t := by
  unfold pyRstrip
  rw [List.reverse_reverse, dropWhile_idem]

theorem pyRstrip_cons (a : Char) (l : Text) :
    pyRstrip (a :: l)
      = if (pyRstrip l).isEmpty then (if pyWhite a then [] else [a])
        else a :: pyRstrip l := by
  have hrev : ∀ x : List Char, x.reverse.isEmpty = x.isEmpty := by
    intro x
    cases x <;> simp
  unfold pyRstrip
  rw [List.reverse_cons, dropWhile_append]
  by_cases h : (l.reverse.dropWhile pyWhite).isEmpty
  · rw [if_pos h, if_pos (by rw [hrev]; exact h)]
    by_cases hw : pyWhite a = true
    · simp [List.dropWhile_cons, hw]
    · simp [List.dropWhile_cons, hw]
  · rw [if_neg h, if_neg (by rw [hrev]; exact h)]
    rw [List.reverse_append]
    rfl

theorem pyRstrip_cons_self {a : Char} {l : Text} (h : pyRstrip (a :: l) = a :: l) :
    pyRstrip l = l := by
  rw [pyRstrip_cons] at h
  by_cases he : (pyRstrip l).isEmpty
  · rw [if_pos he] at h
    by_cases hw : pyWhite a = true
    · rw [if_pos hw] at h
      exact absurd h (by simp)
    · rw [if_neg hw] at h
      have hl : l = [] := by
        have := h.symm
        simpa using this
      rw [hl]
      rfl
  · rw [if_neg he] at h
    simpa using h

theorem pyRstrip_head_cons (a : Char) (l : Text) :
    pyRstrip (a :: l) = [] ∨ ∃ r, pyRstrip (a :: l) = a :: r := by
  rw [pyRstrip_cons]
  by_cases he : (pyRstrip l).isEmpty
  · rw [if_pos he]
    by_cases hw : pyWhite a = true
    · rw [if_pos hw]
      exact Or.inl rfl
    · rw [if_neg hw]
      exact Or.inr ⟨[], rfl⟩
  · rw [if_neg he]
    exact Or.inr ⟨pyRstrip l, rfl⟩

theorem pyLstrip_pyRstrip {u : Text} (h : pyLstrip u = u) :
    pyLstrip (pyRstrip u) = pyRstrip u := by
  cases u with
  | nil => rfl
  | cons a l =>
    have ha : pyWhite a = false := by
      by_contra hc
      have ha' : pyWhite a = true := by
        cases h' : pyWhite a
        · exact absurd h' hc
        · rfl
      have h2 : pyLstrip (a :: l) = pyLstrip l := by
        unfold pyLstrip
        rw [List.dropWhile_cons, if_pos ha']
      rw [h2] at h
      have := length_dropWhile_le pyWhite l
      rw [show l.dropWhile pyWhite = pyLstrip l from rfl, h] at this
      simp at this
    rcases pyRstrip_head_cons a l with h0 | ⟨r, hr⟩
    · rw [h0]
      rfl
    · rw [hr]
      unfold pyLstrip
      rw [List.dropWhile_cons, if_neg (by simp [ha])]

theorem pyStrip_idem (t : Text) : pyStrip (pyStrip t) = pyStrip t := by
  unfold pyStrip
  rw [@pyLstrip_pyRstrip (pyLstrip t) (dropWhile_idem pyWhite t), pyRstrip_idem]

theorem splitLines_ne_nil (t : Text) : splitLines t ≠ [] := by
  cases t with
  | nil => simp [splitLines]
  | cons c cs =>
    simp only [splitLines]
    by_cases h : (c == '\n') = true
    · rw [if_pos h]
      simp
    · rw [if_neg h]
      cases hs : splitLines cs <;> simp

theorem noNL_splitLines : ∀ (t : Text), ∀ l ∈ splitLines t, '\n' ∉ l
  | [] => by
    intro l hl
    simp only [splitLines, List.mem_singleton] at hl
    simp [hl]
  | c :: cs => by
    intro l hl
    simp only [splitLines] at hl
    by_cases h : (c == '\n') = true
    · rw [if_pos h] at hl
      rcases List.mem_cons.mp hl with rfl | hl2
      · simp
      · exact noNL_splitLines cs l hl2
    · rw [if_neg h] at hl
      have hc : c ≠ '\n' := by simpa using h
      cases hs : splitLines cs with
      | nil => exact absurd hs (splitLines_ne_nil cs)
      | cons l0 ls =>
        rw [hs] at hl
        rcases List.mem_cons.mp hl with rfl | hl2
        · intro hmem
          rcases List.mem_cons.mp hmem with heq | hmem2
          · exact hc heq.symm
          · exact noNL_splitLines cs l0 (hs ▸ List.mem_cons_self l0 ls) hmem2
        · exact noNL_splitLines cs l (hs ▸ List.mem_cons_of_mem l0 hl2)

theorem joinLines_splitLines : ∀ t : Text, joinLines (splitLines t) = t
  | [] => rfl
  | c :: cs => by
    simp only [splitLines]
    by_cases h : (c == '\n') = true
    · rw [if_pos h]
      have hc : c = '\n' := by simpa using h
      cases hs : splitLines cs with
      | nil => exact absurd hs (splitLines_ne_nil cs)
      | cons l0 ls =>
        have hj := joinLines_splitLines cs
        rw [hs] at hj
        show [] ++ ['\n'] ++ joinSep ['\n'] (l0 :: ls) = c :: cs
        rw [List.nil_append, hc, ← hj]
        rfl
    · rw [if_neg h]
      cases hs : splitLines cs with
      | nil => exact absurd hs (splitLines_ne_nil cs)
      | cons l0 ls =>
        have hj := joinLines_splitLines cs
        rw [hs] at hj
        cases ls with
        | nil =>
          show c :: l0 = c :: cs
          rw [show l0 = cs from hj]
        | cons l1 ls1 =>
          show (c :: l0) ++ ['\n'] ++ joinSep ['\n'] (l1 :: ls1) = c :: cs
          rw [← hj]
          rfl

theorem splitLines_noNL : ∀ {l : Text}, '\n' ∉ l → splitLines l = [l]
  | [], _ => rfl
  | c :: cs, h => by
    have hc : (c == '\n') = false := by
      simp only [List.mem_cons, not_or] at h
      simpa using fun he => h.1 he.symm
    have hcs : '\n' ∉ cs := by
      simp only [List.mem_cons, not_or] at h
      exact h.2
    simp only [splitLines, hc, Bool.false_eq_true, if_false]
    rw [splitLines_noNL hcs]

theorem splitLines_append_nl : ∀ {l : Text}, '\n' ∉ l → ∀ (rest : Text),
    splitLines (l ++ '\n' :: rest) = l :: splitLines rest
  | [], _, rest => by
    simp only [List.nil_append, splitLines]
    rw [if_pos (by simp)]
  | c :: cs, h, rest => by
    have hc : (c == '\n') = false := by
      simp only [List.mem_cons, not_or] at h
      simpa using fun he => h.1 he.symm
    have hcs : '\n' ∉ cs := by
      simp only [List.mem_cons, not_or] at h
      exact h.2
    simp only [List.cons_append, splitLines, hc, Bool.false_eq_true, if_false,
      List.append_eq]
    rw [splitLines_append_nl hcs rest]

theorem splitLines_joinLines : ∀ (ls : List Text), ls ≠ [] →
    (∀ l ∈ ls, '\n' ∉ l) → splitLines (joinLines ls) = ls
  | [], h, _ => absurd rfl h
  | [l], _, h => splitLines_noNL (h l (List.mem_singleton_self l))
  | l :: l2 :: ls, _, h => by
    show splitLines (l ++ ['\n'] ++ joinSep ['\n'] (l2 :: ls)) = l :: l2 :: ls
    rw [List.append_assoc]
    show splitLines (l ++ '\n' :: joinLines (l2 :: ls)) = l :: l2 :: ls
    rw [splitLines_append_nl (h l (List.mem_cons_self l (l2 :: ls))),
      splitLines_joinLines (l2 :: ls) (by simp)
        (fun x hx => h x (List.mem_cons_of_mem l hx))]

theorem mem_pyRstrip {c : Char} {x : Text} (h : c ∈ pyRstrip x) : c ∈ x := by
  unfold pyRstrip at h
  rw [List.mem_reverse] at h
  exact List.mem_reverse.mp ((List.dropWhile_sublist pyWhite).mem h)

theorem rstrip_lines_lines (t : Text) :
    splitLines (rstrip_lines t) = (splitLines t).map pyRstrip := by
  unfold rstrip_lines
  apply splitLines_joinLines
  · simpa using splitLines_ne_nil t
  · intro l hl
    obtain ⟨x, hx, rfl⟩ := List.mem_map.mp hl
    intro hnl
    exact noNL_splitLines t x hx (mem_pyRstrip hnl)

theorem P_rstrip_lines (t : Text) :
    ∀ l ∈ splitLines (rstrip_lines t), pyRstrip l = l := by
  rw [rstrip_lines_lines]
  intro l hl
  obtain ⟨x, _, rfl⟩ := List.mem_map.mp hl
  exact pyRstrip_idem x

theorem rstrip_lines_of_P {t : Text}
    (h : ∀ l ∈ splitLines t, pyRstrip l = l) : rstrip_lines t = t := by
  unfold rstrip_lines
  rw [List.map_congr_left (fun a ha => (h a ha : pyRstrip a = id a)), List.map_id',
    joinLines_splitLines]

theorem P_pyLstrip : ∀ (t : Text), (∀ l ∈ splitLines t, pyRstrip l = l) →
    ∀ l ∈ splitLines (pyLstrip t), pyRstrip l = l
  | [], h => h
  | c :: cs, h => by
    by_cases hw : pyWhite c = true
    · have hstep : pyLstrip (c :: cs) = pyLstrip cs := by
        unfold pyLstrip
        rw [List.dropWhile_cons, if_pos hw]
      rw [hstep]
      apply P_pyLstrip cs
      intro l hl
      by_cases hc : (c == '\n') = true
      · exact h l (by
          simp only [splitLines, if_pos hc]
          exact List.mem_cons_of_mem _ hl)
      · cases hs : splitLines cs with
        | nil => exact absurd hs (splitLines_ne_nil cs)
        | cons l0 ls =>
          rw [hs] at hl
          rcases List.mem_cons.mp hl with rfl | hl2
          · have hmem : (c :: l) ∈ splitLines (c :: cs) := by
              simp only [splitLines, if_neg hc, hs]
              exact List.mem_cons_self _ _
            exact pyRstrip_cons_self (h (c :: l) hmem)
          · exact h l (by
              simp only [splitLines, if_neg hc, hs]
              exact List.mem_cons_of_mem _ hl2)
    · have hstep : pyLstrip (c :: cs) = c :: cs := by
        unfold pyLstrip
        rw [List.dropWhile_cons, if_neg hw]
      rw [hstep]
      exact h

/-- Append a character to the last line of a line list. -/
def appendLast : List Text → Char → List Text
  | [], c => [[c]]
  | [l], c => [l ++ [c]]
  | l :: l2 :: ls, c => l :: appendLast (l2 :: ls) c

theorem splitLines_append_single_nl : ∀ (r : Text),
    splitLines (r ++ ['\n']) = splitLines r ++ [[]]
  | [] => by
    simp only [List.nil_append, splitLines]
    rw [if_pos (by simp)]
    rfl
  | c :: cs => by
    simp only [List.cons_append, splitLines, List.append_eq]
    by_cases hc : (c == '\n') = true
    · rw [if_pos hc, if_pos hc, splitLines_append_single_nl cs]
      rfl
    · rw [if_neg hc, if_neg hc, splitLines_append_single_nl cs]
      cases hs : splitLines cs with
      | nil => exact absurd hs (splitLines_ne_nil cs)
      | cons l0 ls => rfl

theorem splitLines_append_single : ∀ (r : Text) {c : Char}, c ≠ '\n' →
    splitLines (r ++ [c]) = appendLast (splitLines r) c
  | [], c, hc => by
    simp only [List.nil_append, splitLines]
    rw [if_neg (by simpa using hc)]
    rfl
  | a :: r', c, hc => by
    simp only [List.cons_append, splitLines, List.append_eq]
    by_cases ha : (a == '\n') = true
    · rw [if_pos ha, if_pos ha, splitLines_append_single r' hc]
      cases hs : splitLines r' with
      | nil => exact absurd hs (splitLines_ne_nil r')
      | cons l0 ls => rfl
    · rw [if_neg ha, if_neg ha, splitLines_append_single r' hc]
      cases hs : splitLines r' with
      | nil => exact absurd hs (splitLines_ne_nil r')
      | cons l0 ls =>
        cases ls with
        | nil => rfl
        | cons l1 ls1 => rfl

theorem appendLast_mem (c : Char) : ∀ (ls : List Text),
    ∃ x, x ++ [c] ∈ appendLast ls c
  | [] => ⟨[], by simp [appendLast]⟩
  | [l] => ⟨l, by simp [appendLast]⟩
  | l :: l2 :: ls =>
    have ⟨x, hx⟩ := appendLast_mem c (l2 :: ls)
    ⟨x, List.mem_cons_of_mem l hx⟩

theorem pyRstrip_append_white (r : Text) {c : Char} (hc : pyWhite c = true) :
    pyRstrip (r ++ [c]) = pyRstrip r := by
  unfold pyRstrip
  rw [List.reverse_append]
  show ((c :: r.reverse).dropWhile pyWhite).reverse = _
  rw [List.dropWhile_cons, if_pos hc]

theorem pyRstrip_append_nonwhite (r : Text) {c : Char} (hc : pyWhite c = false) :
    pyRstrip (r ++ [c]) = r ++ [c] := by
  unfold pyRstrip
  rw [List.reverse_append]
  show ((c :: r.reverse).dropWhile pyWhite).reverse = _
  rw [List.dropWhile_cons, if_neg (by simp [hc])]
  simp

theorem pyRstrip_length_le (t : Text) : (pyRstrip t).length ≤ t.length := by
  unfold pyRstrip
  rw [List.length_reverse]
  calc (t.reverse.dropWhile pyWhite).length
      ≤ t.reverse.length := length_dropWhile_le pyWhite t.reverse
    _ = t.length := List.length_reverse t.reverse ▸ by simp

theorem P_pyRstrip (t : Text) (h : ∀ l ∈ splitLines t, pyRstrip l = l) :
    ∀ l ∈ splitLines (pyRstrip t), pyRstrip l = l := by
  induction t using List.reverseRecOn with
  | nil => simpa using h
  | append_singleton r c ih =>
    by_cases hw : pyWhite c = true
    · by_cases hc : c = '\n'
      · subst hc
        rw [pyRstrip_append_white r hw]
        apply ih
        intro l hl
        apply h
        rw [splitLines_append_single_nl]
        exact List.mem_append_left _ hl
      · exfalso
        obtain ⟨x, hx⟩ := appendLast_mem c (splitLines r)
        rw [← splitLines_append_single r hc] at hx
        have heq := h _ hx
        rw [pyRstrip_append_white x hw] at heq
        have hlen := pyRstrip_length_le x
        rw [heq] at hlen
        simp at hlen
    · rw [pyRstrip_append_nonwhite r (by simpa using hw)]
      exact h

theorem P_pyStrip (t : Text) (h : ∀ l ∈ splitLines t, pyRstrip l = l) :
    ∀ l ∈ splitLines (pyStrip t), pyRstrip l = l :=
  P_pyRstrip (pyLstrip t) (P_pyLstrip t h)

theorem clean_output_shape (note_type title x : Text) :
    clean_output note_type title x = []
      ∨ ∃ z, clean_output note_type title x = pyStrip (rstrip_lines z) := by
  by_cases hx : x.isEmpty
  · left
    simp only [clean_output, if_pos hx]
    exact List.isEmpty_iff.mp hx
  · right
    refine ⟨collapse_nl (clean_h1 note_type title (pyStrip (fm_sub (pyStrip x)))), ?_⟩
    simp only [clean_output, if_neg hx]

/-- C2, amended: `_clean_output` is *not* idempotent in general (see
`clean_output_not_idempotent`); it is idempotent on every input whose
first-pass output is left unchanged by the frontmatter-removal step, by
the duplicate-heading-removal step and by the blank-line-collapse step.
The remaining steps — the whitespace strips and the per-line rstrip —
are always identities on `_clean_output`'s image. -/
theorem clean_output_idem_amended (note_type title x : Text)
    (h1 : fm_sub (clean_output note_type title x) = clean_output note_type title x)
    (h2 : clean_h1 note_type title (clean_output note_type title x)
      = clean_output note_type title x)
    (h3 : collapse_nl (clean_output note_type title x)
      = clean_output note_type title x) :
    clean_output note_type title (clean_output note_type title x)
      = clean_output note_type title x := by
  rcases clean_output_shape note_type title x with hz | ⟨z, hz⟩
  · rw [hz]
    rfl
  · set y := clean_output note_type title x with hy
    have hstrip : pyStrip y = y := by
      rw [hz, pyStrip_idem]
    have hP : ∀ l ∈ splitLines y, pyRstrip l = l := by
      rw [hz]
      exact P_pyStrip _ (P_rstrip_lines z)
    have hrl : rstrip_lines y = y := rstrip_lines_of_P hP
    by_cases hY : y.isEmpty
    · rw [List.isEmpty_iff.mp hY]
      rfl
    · simp only [clean_output, if_neg hY]
      rw [hstrip, h1, hstrip, h2, h3, hrl, hstrip]

/-- C2's claim as stated is false: on `"a\n \n \n \nb"` the per-line
rstrip of the first pass turns the whitespace-only lines into empty
lines, creating a run of four newlines that only the *second* pass's
blank-line collapse shortens. -/
theorem clean_output_not_idempotent :
    clean_output "summary".toList "T".toList
        (clean_output "summary".toList "T".toList "a\n \n \n \nb".toList)
      ≠ clean_output "summary".toList "T".toList "a\n \n \n \nb".toList := by
  decide

/-- Concrete instance of `clean_output_idem_amended`: on `"hello"` the
three hypotheses hold and a second clean changes nothing. -/
theorem clean_output_idem_amended_witness :
    fm_sub (clean_output "summary".toList "T".toList "hello".toList)
        = clean_output "summary".toList "T".toList "hello".toList
      ∧ clean_output "summary".toList "T".toList
          (clean_output "summary".toList "T".toList "hello".toList)
        = clean_output "summary".toList "T".toList "hello".toList :=
  ⟨by decide,
    clean_output_idem_amended "summary".toList "T".toList "hello".toList
      (by decide) (by decide) (by decide)⟩
